import Mathlib

/-!
Shallow embedding of `src/slipstream/core.py` (the topology registry and
message-distribution engine) and proofs about the spec's claims.

Python values that cross the interfaces we verify are modelled by `PyVal`:
scalars (bytes, text, the null object `None`, opaque objects identified by
a numeral) and flat tuples of scalars.  The embedded functions only ever
test `isinstance(..., tuple)` and unpack tuples, so this universe is
faithful for every code path verified here.

Stateful Python code is embedded as explicit state passing; each `await`
inside a single task is sequential composition, so a per-task execution is
a plain Lean function producing a trace of observable events.  Fallible
code returns `Except`.
-/

namespace Slipstream

/-- A scalar Python value: `bytes` (as the list of byte values), `str`,
`None`, or an opaque object identified by a numeral. -/
inductive PyScalar
  | bytes (b : List Nat)
  | str (s : String)
  | pyNone
  | obj (n : Nat)
  deriving DecidableEq, Repr

/-- A Python value: a scalar or a flat tuple of scalars. -/
inductive PyVal
  | scalar (s : PyScalar)
  | tup (elems : List PyScalar)
  deriving DecidableEq, Repr

/-- Python truthiness of the values in our universe (`bool(v)`). -/
def PyVal.truthy : PyVal → Bool
  | .scalar (.bytes b) => !b.isEmpty
  | .scalar (.str s) => !(s = "")
  | .scalar .pyNone => false
  | .scalar (.obj _) => true
  | .tup elems => !elems.isEmpty

/-- `isinstance(v, tuple)`. -/
def PyVal.isTuple : PyVal → Bool
  | .tup _ => true
  | _ => false

/-- `bytes.decode()`: byte values to text (codepoint-wise; the embedding
does not model UTF-8 decode failures, which no claim touches). -/
def decodeBytes (b : List Nat) : String :=
  String.mk (b.map Char.ofNat)

/-- Python `dict.get(k)`: first binding of `k` in the association list. -/
def dictGet {α : Type} (d : List (String × α)) (k : String) : Option α :=
  match d with
  | [] => none
  | (k1, v) :: t => if k1 = k then some v else dictGet t k

/-- Python `d[k] = v`: replace the binding in place if the key is present
(position preserved, as in a Python dict), else append it. -/
def dictSet {α : Type} (d : List (String × α)) (k : String) (v : α) :
    List (String × α) :=
  match d with
  | [] => [(k, v)]
  | (k1, v1) :: t => if k1 = k then (k, v) :: t else (k1, v1) :: dictSet t k v

/-- Truthiness of `conf.get(k)`: `None` (absent key) is falsy. -/
def confTruthy (d : List (String × PyVal)) (k : String) : Bool :=
  match dictGet d k with
  | none => false
  | some v => v.truthy

/-! ## Stream Entity (`Topic`)

`Topic.__init__` records name, merged conf, starting offset and codec, and
leaves `consumer`/`producer` unset (`None`).  The transport handles
themselves (`AIOKafkaConsumer`/`AIOKafkaProducer`) are external
collaborators; the embedding identifies a created handle by a numeral. -/

structure TopicState where
  name : String
  conf : List (String × PyVal)
  starting_offset : Option Int
  codec : Option Nat
  consumer : Option Nat
  producer : Option Nat
  deriving DecidableEq, Repr

/-- `Topic.get_consumer` (the part acting on the entity's own state): when
a codec is attached it writes `conf['value_deserializer'] = codec.decode`
before building the consumer.  The consumer construction and start are
transport-side effects outside the entity's state. -/
def get_consumer (t : TopicState) : TopicState :=
  match t.codec with
  | some c => { t with conf := dictSet t.conf "value_deserializer" (.scalar (.obj c)) }
  | none => t

/-- `Topic.get_producer` (state part): with a codec it writes
`conf['value_serializer'] = codec.encode`. -/
def get_producer (t : TopicState) : TopicState :=
  match t.codec with
  | some c => { t with conf := dictSet t.conf "value_serializer" (.scalar (.obj c)) }
  | none => t

/-- Lazy consumer creation at the top of `Topic.__aiter__`:
`if not self.consumer: self.consumer = await self.get_consumer()`.
`h` identifies the freshly started transport handle. -/
def aiterInit (t : TopicState) (h : Nat) : TopicState :=
  match t.consumer with
  | some _ => t
  | none => { get_consumer t with consumer := some h }

/-- Lazy producer creation at the top of `Topic.__call__`:
`if not self.producer: self.producer = await self.get_producer()`. -/
def callInit (t : TopicState) (h : Nat) : TopicState :=
  match t.producer with
  | some _ => t
  | none => { get_producer t with producer := some h }

/-- A consumed record, before and after the per-message transform in
`Topic.__aiter__`. -/
structure Msg where
  key : PyVal
  value : PyVal
  deriving DecidableEq, Repr

/-- The per-message body of `Topic.__aiter__`: decode a bytes key when no
`key_deserializer` conf entry is truthy, likewise for the value, then
yield the record. -/
def aiterMsg (t : TopicState) (m : Msg) : Msg :=
  let key :=
    match m.key with
    | .scalar (.bytes b) =>
        if confTruthy t.conf "key_deserializer" then m.key
        else .scalar (.str (decodeBytes b))
    | _ => m.key
  let value :=
    match m.value with
    | .scalar (.bytes b) =>
        if confTruthy t.conf "value_deserializer" then m.value
        else .scalar (.str (decodeBytes b))
    | _ => m.value
  { key := key, value := value }

/-- Observable transport stop calls made during shutdown. -/
inductive StopEvent
  | stopConsumer (h : Nat)
  | stopProducer (h : Nat)
  deriving DecidableEq, Repr

/-- `Topic._shutdown`: stop the consumer if it was created, then the
producer if it was created.  No entity field is mutated; the returned
state is the (unchanged) entity together with the stop calls issued. -/
def topicShutdown (t : TopicState) : TopicState × List StopEvent :=
  let consumerStops :=
    match t.consumer with
    | some h => [StopEvent.stopConsumer h]
    | none => []
  let producerStops :=
    match t.producer with
    | some h => [StopEvent.stopProducer h]
    | none => []
  (t, consumerStops ++ producerStops)

/-! ## Sink Dispatcher (`_sink_output`)

A sink is a `Cache` (keyed storage, external collaborator), a `Topic`
(stream sink) or a plain function; the dispatcher branches on
`isinstance`.  A call issued to a sink is an observable effect. -/

inductive Sink
  | cache (id : Nat)
  | topic (id : Nat)
  | func (id : Nat) (is_coroutine : Bool)
  deriving DecidableEq, Repr

inductive SinkEffect
  | cacheWrite (id : Nat) (key value : PyScalar)
  | topicSend (id : Nat) (key value : PyVal)
  | funcCall (id : Nat) (arg : PyVal)
  deriving DecidableEq, Repr

inductive PyErr
  | valueError (msg : String)
  | typeError (msg : String)
  deriving DecidableEq, Repr

/-- Modelled from the spec: the storage collaborator (`Cache.__call__`,
defined outside `src/slipstream/core.py`) is "a capability accepting
`(key, value)` pairs".  Calling it with the unpacked tuple `s(*output)`
therefore binds exactly two positional arguments; any other arity is a
Python `TypeError` at the call site. -/
def cacheCall (id : Nat) (args : List PyScalar) : Except PyErr SinkEffect :=
  match args with
  | [k, v] => .ok (.cacheWrite id k v)
  | _ => .error (.typeError "Cache positional argument count mismatch")

/-- `Topic.__call__` takes `(key, value)`; calling it with an unpacked
tuple of any other arity is a Python `TypeError` at the call site. -/
def topicCall (id : Nat) (args : List PyScalar) : Except PyErr SinkEffect :=
  match args with
  | [k, v] => .ok (.topicSend id (.scalar k) (.scalar v))
  | _ => .error (.typeError "Topic positional argument count mismatch")

/-- `_sink_output(s, output)`: for a `Cache` sink a non-tuple raises
`ValueError('Cache sink expects: Tuple[key, val].')` and a tuple is
unpacked into the cache call; for a `Topic` sink a non-tuple is produced
with key `b''`, a tuple is unpacked into the topic call; a plain function
is invoked (awaited when async) with the whole value. -/
def sink_output (s : Sink) (output : PyVal) : Except PyErr SinkEffect :=
  match s with
  | .cache id =>
    match output with
    | .tup elems => cacheCall id elems
    | _ => .error (.valueError "Cache sink expects: Tuple[key, val].")
  | .topic id =>
    match output with
    | .tup elems => topicCall id elems
    | _ => .ok (.topicSend id (.scalar (.bytes [])) output)
  | .func id _ => .ok (.funcCall id output)

/-! ## Handler Binder (`handle._deco._handler`)

The bound closure calls the processing function, then runs
`for val in output if isinstance(output, Generator) else [output]:
   for s in sink: await _sink_output(s, val)`.
The processing function's return is a generator (modelled by the finite
list of values it yields) or a single value (`None` when the function
returns nothing).  Dispatch is sequential within the task; an exception
from `_sink_output` aborts the remaining iterations and propagates.  The
trace records every `_sink_output` call made, in order. -/

inductive HandlerOut
  | gen (vals : List PyVal)
  | single (v : PyVal)
  deriving DecidableEq, Repr

/-- The inner `for s in sink: await _sink_output(s, val)` loop: returns
the calls issued (each a `(sink, value)` pair) and the first exception,
which stops the loop. -/
def dispatchSinks (sinks : List Sink) (val : PyVal) :
    List (Sink × PyVal) × Option PyErr :=
  match sinks with
  | [] => ([], none)
  | s :: rest =>
    match sink_output s val with
    | .error e => ([(s, val)], some e)
    | .ok _ =>
      let (calls, err) := dispatchSinks rest val
      ((s, val) :: calls, err)

/-- The outer `for val in ...` loop over the produced values. -/
def dispatchVals (sinks : List Sink) (vals : List PyVal) :
    List (Sink × PyVal) × Option PyErr :=
  match vals with
  | [] => ([], none)
  | v :: rest =>
    match dispatchSinks sinks v with
    | (calls, some e) => (calls, some e)
    | (calls, none) =>
      let (calls2, err) := dispatchVals sinks rest
      (calls ++ calls2, err)

/-- The dispatch part of the bound handler `_handler`: iterate the return
value when it is a generator, else treat it as the single output. -/
def handlerDispatch (sinks : List Sink) (output : HandlerOut) :
    List (Sink × PyVal) × Option PyErr :=
  match output with
  | .gen vals => dispatchVals sinks vals
  | .single v => dispatchVals sinks [v]

/-- The whole bound closure: call the processing function `f` on the
message, then dispatch its output. -/
def handlerRun (f : PyVal → HandlerOut) (sinks : List Sink) (msg : PyVal) :
    List (Sink × PyVal) × Option PyErr :=
  handlerDispatch sinks (f msg)

/-! ## Topology Registry (`Conf`)

`Conf.handlers` is a dict from source key to a Python *set* of handlers.
The embedding keeps each set as its insertion-ordered duplicate-free list
of handler identities; `set.add` appends only when absent.  CPython gives
no guarantee that iterating the set visits elements in insertion order,
so every consumer of a set below takes the iteration order as a
permutation of the stored elements. -/

/-- `set.add(h)` on the insertion-ordered representation. -/
def pysetAdd (s : List Nat) (h : Nat) : List Nat :=
  if h ∈ s then s else s ++ [h]

structure ConfState where
  topics : List TopicState
  iterables : List (String × Nat)
  handlers : List (String × List Nat)
  deriving DecidableEq, Repr

def emptyConf : ConfState :=
  { topics := [], iterables := [], handlers := [] }

/-- `Conf.register_topic`. -/
def register_topic (st : ConfState) (t : TopicState) : ConfState :=
  { st with topics := st.topics ++ [t] }

/-- `Conf.register_iterable` (`iterables` is a set of pairs; add-if-absent). -/
def register_iterable (st : ConfState) (key : String) (it : Nat) : ConfState :=
  if (key, it) ∈ st.iterables then st
  else { st with iterables := st.iterables ++ [(key, it)] }

/-- `Conf.register_handler`: fetch the key's set (empty when absent), add
the handler, store it back. -/
def register_handler (st : ConfState) (key : String) (h : Nat) : ConfState :=
  let cur := (dictGet st.handlers key).getD []
  { st with handlers := dictSet st.handlers key (pysetAdd cur h) }

/-! ## Dispatch Loop (`Conf._distribute_messages`, `Conf._start`)

One task per registered source runs
`async for msg in it: for h in self.handlers.get(key, []): await h(...)`.
Within the task everything is sequential, so the task's execution over
the finite message sequence `msgs` is a trace of events: a pull of each
message followed by the handler invocations for it.  `hs` is the handler
set in the order set iteration yields it. -/

inductive DEvent
  | pull (m : Nat)
  | invoke (h : Nat) (m : Nat)
  deriving DecidableEq, Repr

/-- The inner `for h in hs: await h(msg=msg, kwargs=kwargs)` loop. -/
def invokeAll (hs : List Nat) (m : Nat) : List DEvent :=
  match hs with
  | [] => []
  | h :: t => DEvent.invoke h m :: invokeAll t m

/-- The `async for` loop of `_distribute_messages`: pull a message, run
every handler to completion, then pull the next. -/
def distributeMessages (hs : List Nat) (msgs : List Nat) : List DEvent :=
  match msgs with
  | [] => []
  | m :: rest => DEvent.pull m :: (invokeAll hs m ++ distributeMessages hs rest)

/-- `_distribute_messages(key, it, kwargs)` as run for one source: look
up the key's handler set (`self.handlers.get(key, [])`) and drain the
source.  `enum` is the set-iteration order the runtime happens to use. -/
def distributeForKey (enum : List Nat → List Nat) (st : ConfState)
    (key : String) (msgs : List Nat) : List DEvent :=
  distributeMessages (enum ((dictGet st.handlers key).getD [])) msgs

/-- A Python exception reaching `Conf._start`. -/
inductive PyExc
  | keyboardInterrupt
  | exc (name : String)
  deriving DecidableEq, Repr

/-- `asyncio.gather` over the per-source tasks: all succeed, or the first
failure propagates. -/
def gatherExc (rs : List (Except PyExc Unit)) : Except PyExc Unit :=
  match rs with
  | [] => .ok ()
  | .ok _ :: rest => gatherExc rest
  | .error e :: _ => .error e

/-- The `try ... except KeyboardInterrupt: pass` of `Conf._start`: an
interrupt is swallowed (the coroutine returns normally), everything else
propagates. -/
def exceptKI (body : Except PyExc Unit) : Except PyExc Unit :=
  match body with
  | .error .keyboardInterrupt => .ok ()
  | r => r

/-- `Conf._shutdown`: after the grace sleep, shut every registered topic
down, in registration order. -/
def confShutdown (topics : List TopicState) : List StopEvent :=
  match topics with
  | [] => []
  | t :: rest => (topicShutdown t).snd ++ confShutdown rest

/-- `Conf._start`: gather the per-source tasks (their joint outcome is
`rs`), swallow a `KeyboardInterrupt`, and run `_shutdown` in the
`finally` block — so the stop calls happen whether the result is normal
or an exception re-raise. -/
def conf_start (topics : List TopicState) (rs : List (Except PyExc Unit)) :
    Except PyExc Unit × List StopEvent :=
  (exceptKI (gatherExc rs), confShutdown topics)

/-! ## Shared lemmas -/

theorem invokeAll_eq_map (hs : List Nat) (m : Nat) :
    invokeAll hs m = hs.map fun h => DEvent.invoke h m := by
  induction hs with
  | nil => rfl
  | cons h t ih => simp [invokeAll, ih]

theorem distributeMessages_eq_flatten (hs msgs : List Nat) :
    distributeMessages hs msgs =
      (msgs.map fun m => DEvent.pull m :: invokeAll hs m).flatten := by
  induction msgs with
  | nil => rfl
  | cons m rest ih => simp [distributeMessages, ih]

/-- The subsequence of messages pulled, in trace order. -/
def pulls : List DEvent → List Nat
  | [] => []
  | .pull m :: t => m :: pulls t
  | .invoke _ _ :: t => pulls t

theorem pulls_append (a b : List DEvent) :
    pulls (a ++ b) = pulls a ++ pulls b := by
  induction a with
  | nil => rfl
  | cons e t ih => cases e <;> simp [pulls, ih]

theorem pulls_invokeAll (hs : List Nat) (m : Nat) :
    pulls (invokeAll hs m) = [] := by
  induction hs with
  | nil => rfl
  | cons h t ih => simp [invokeAll, pulls, ih]

theorem pulls_distributeMessages (hs msgs : List Nat) :
    pulls (distributeMessages hs msgs) = msgs := by
  induction msgs with
  | nil => rfl
  | cons m rest ih =>
    simp [distributeMessages, pulls, pulls_append, pulls_invokeAll, ih]

theorem invokeAll_count (hs : List Nat) (m h : Nat) :
    (invokeAll hs m).count (DEvent.invoke h m) = hs.count h := by
  induction hs with
  | nil => rfl
  | cons h1 t ih => simp [invokeAll, List.count_cons, ih]

/-! ## Claims about the dispatch loop -/

/-- C1: for every single registered source, messages pulled from that
source are delivered to that source's bound handlers strictly in arrival
order, and every handler invoked for one message is awaited to completion
before the next message is pulled from that source.  The task's trace is
exactly: pull the first message, run all its handler invocations, pull
the next message, and so on; in particular the pulled messages appear in
arrival order. -/
theorem per_source_ordered_delivery (enum : List Nat → List Nat)
    (st : ConfState) (key : String) (msgs : List Nat) :
    distributeForKey enum st key msgs =
      (msgs.map fun m =>
        DEvent.pull m :: invokeAll (enum ((dictGet st.handlers key).getD [])) m).flatten
    ∧ pulls (distributeForKey enum st key msgs) = msgs := by
  refine ⟨?_, ?_⟩
  · exact distributeMessages_eq_flatten ..
  · exact pulls_distributeMessages ..

/-- C2 counterexample: handlers live in a Python `set`, whose iteration
order is unspecified, so the runtime may enumerate a two-element handler
set in the reverse of registration order; then the invocation order for a
message differs from registration order, refuting "in the order the
handlers were registered". -/
theorem handlers_registration_order_cex :
    (List.reverse ((dictGet (register_handler (register_handler emptyConf "k" 1) "k" 2).handlers "k").getD [])).Perm
      ((dictGet (register_handler (register_handler emptyConf "k" 1) "k" 2).handlers "k").getD [])
    ∧ (dictGet (register_handler (register_handler emptyConf "k" 1) "k" 2).handlers "k").getD [] = [1, 2]
    ∧ distributeForKey List.reverse
        (register_handler (register_handler emptyConf "k" 1) "k" 2) "k" [7]
        = [DEvent.pull 7, DEvent.invoke 2 7, DEvent.invoke 1 7]
    ∧ [DEvent.pull 7, DEvent.invoke 2 7, DEvent.invoke 1 7]
        ≠ [DEvent.pull 7, DEvent.invoke 1 7, DEvent.invoke 2 7] := by
  decide

/-- C2 amended: for every message pulled from a source during dispatch,
every handler registered under that source's key is invoked exactly once,
each awaited before the next, in the set's iteration order — some
permutation of the registered handlers, not necessarily registration
order. -/
theorem handlers_each_invoked_once (enum : List Nat → List Nat)
    (st : ConfState) (key : String) (msgs : List Nat)
    (hperm : (enum ((dictGet st.handlers key).getD [])).Perm
        ((dictGet st.handlers key).getD []))
    (hnodup : ((dictGet st.handlers key).getD []).Nodup) :
    distributeForKey enum st key msgs =
      (msgs.map fun m =>
        DEvent.pull m :: invokeAll (enum ((dictGet st.handlers key).getD [])) m).flatten
    ∧ ∀ m h, h ∈ (dictGet st.handlers key).getD [] →
        (invokeAll (enum ((dictGet st.handlers key).getD [])) m).count
          (DEvent.invoke h m) = 1 := by
  refine ⟨distributeMessages_eq_flatten .., ?_⟩
  intro m h hmem
  rw [invokeAll_count]
  rw [hperm.count_eq]
  exact List.count_eq_one_of_mem hnodup hmem

/-- C2 amended witness: with two handlers registered under one key and
the set enumerated in reverse, each registered handler is still invoked
exactly once for the pulled message. -/
theorem handlers_each_invoked_once_witness :
    (invokeAll (List.reverse
        ((dictGet (register_handler (register_handler emptyConf "k" 1) "k" 2).handlers
          "k").getD [])) 7).count (DEvent.invoke 1 7) = 1 :=
  (handlers_each_invoked_once List.reverse
    (register_handler (register_handler emptyConf "k" 1) "k" 2) "k" [7]
    (by decide) (by decide)).2 7 1 (by decide)

/-- C10: for every message pulled from a registered source whose identity
key has no entry in the registry's handler mapping, the dispatch loop
consumes the message, invokes no handler, raises no error, and continues
to the next message: the trace is exactly one pull per message, in order,
with no invocation events (the embedded loop is total, so no error is
raised). -/
theorem absent_key_no_handler_invoked (enum : List Nat → List Nat)
    (st : ConfState) (key : String) (msgs : List Nat)
    (hkey : dictGet st.handlers key = none)
    (henum : (enum []).Perm []) :
    distributeForKey enum st key msgs = msgs.map DEvent.pull
    ∧ ∀ h m, DEvent.invoke h m ∉ distributeForKey enum st key msgs := by
  have hnil : enum [] = [] := henum.eq_nil
  have hmain : distributeForKey enum st key msgs = msgs.map DEvent.pull := by
    unfold distributeForKey
    rw [hkey]
    simp only [Option.getD_none, hnil]
    induction msgs with
    | nil => rfl
    | cons m rest ih => simp [distributeMessages, invokeAll, ih]
  refine ⟨hmain, ?_⟩
  intro h m hmem
  rw [hmain] at hmem
  rcases List.mem_map.mp hmem with ⟨x, _, hx⟩
  exact DEvent.noConfusion hx

/-- C10 witness: draining two messages under a key that was never
registered yields exactly the two pulls and nothing else. -/
theorem absent_key_no_handler_invoked_witness :
    distributeForKey (fun l => l) emptyConf "missing" [1, 2]
      = [DEvent.pull 1, DEvent.pull 2] :=
  (absent_key_no_handler_invoked (fun l => l) emptyConf "missing" [1, 2]
    rfl (by decide)).1

/-! ## Claims about sink dispatch -/

/-- `_sink_output(s, v)` returns without raising. -/
def sinkOk (s : Sink) (v : PyVal) : Bool :=
  match sink_output s v with
  | .ok _ => true
  | .error _ => false

theorem dispatchSinks_ok (sinks : List Sink) (v : PyVal)
    (h : ∀ s ∈ sinks, sinkOk s v = true) :
    dispatchSinks sinks v = (sinks.map fun s => (s, v), none) := by
  induction sinks with
  | nil => rfl
  | cons s rest ih =>
    have hs : sinkOk s v = true := h s (List.mem_cons_self s rest)
    have hrest : ∀ s1 ∈ rest, sinkOk s1 v = true :=
      fun s1 hm => h s1 (List.mem_cons_of_mem s hm)
    unfold dispatchSinks
    unfold sinkOk at hs
    cases hso : sink_output s v with
    | error e => rw [hso] at hs; exact Bool.noConfusion hs
    | ok eff => simp [ih hrest]

theorem dispatchVals_ok (sinks : List Sink) (vals : List PyVal)
    (h : ∀ v ∈ vals, ∀ s ∈ sinks, sinkOk s v = true) :
    dispatchVals sinks vals =
      ((vals.map fun v => sinks.map fun s => (s, v)).flatten, none) := by
  induction vals with
  | nil => rfl
  | cons v rest ih =>
    have hv : ∀ s ∈ sinks, sinkOk s v = true := h v (List.mem_cons_self v rest)
    have hrest : ∀ v1 ∈ rest, ∀ s ∈ sinks, sinkOk s v1 = true :=
      fun v1 hm => h v1 (List.mem_cons_of_mem v hm)
    unfold dispatchVals
    rw [dispatchSinks_ok sinks v hv, ih hrest]
    simp

/-- C3: for every processing function bound via the Handler Binder whose
return value is a finite sequence of outputs (a generator yielding
`vals`), and whose sink dispatches all succeed, the trace of
`_sink_output` calls is exactly: for each yielded element in production
order, one call per declared sink in declaration order — so each element
is dispatched exactly once to every sink, and an element reaches all
sinks before the next element is dispatched. -/
theorem gen_output_each_element_to_every_sink (f : PyVal → HandlerOut)
    (sinks : List Sink) (msg : PyVal) (vals : List PyVal)
    (hf : f msg = HandlerOut.gen vals)
    (hok : ∀ v ∈ vals, ∀ s ∈ sinks, sinkOk s v = true) :
    handlerRun f sinks msg =
      ((vals.map fun v => sinks.map fun s => (s, v)).flatten, none) := by
  unfold handlerRun handlerDispatch
  rw [hf]
  exact dispatchVals_ok sinks vals hok

/-- C3 witness: a generator yielding two strings, dispatched to a plain
function sink and a stream sink, produces exactly the four calls in
element-major order. -/
theorem gen_output_each_element_to_every_sink_witness :
    handlerRun (fun _ => HandlerOut.gen [.scalar (.str "a"), .scalar (.str "b")])
      [Sink.func 0 false, Sink.topic 1] (.scalar .pyNone) =
      ([(Sink.func 0 false, PyVal.scalar (.str "a")),
        (Sink.topic 1, PyVal.scalar (.str "a")),
        (Sink.func 0 false, PyVal.scalar (.str "b")),
        (Sink.topic 1, PyVal.scalar (.str "b"))], none) := by
  have h := gen_output_each_element_to_every_sink
    (fun _ => HandlerOut.gen [.scalar (.str "a"), .scalar (.str "b")])
    [Sink.func 0 false, Sink.topic 1] (.scalar .pyNone)
    [.scalar (.str "a"), .scalar (.str "b")] (by decide) (by decide)
  simpa using h

/-- C4 counterexample: a three-element tuple is not a two-element
(key, value) pair, yet `_sink_output`'s shape check (`isinstance(output,
tuple)`) passes it through to the storage call, so the sink-shape
`ValueError` is not raised; the failure that does occur is the storage
call's positional-argument `TypeError`, a different exception. -/
theorem cache_nonpair_shape_error_cex :
    sink_output (Sink.cache 0) (.tup [.obj 1, .obj 2, .obj 3])
      = .error (.typeError "Cache positional argument count mismatch")
    ∧ (Except.error (PyErr.typeError "Cache positional argument count mismatch")
        : Except PyErr SinkEffect)
      ≠ .error (.valueError "Cache sink expects: Tuple[key, val].") := by
  refine ⟨rfl, ?_⟩
  intro h
  exact PyErr.noConfusion (Except.error.inj h)

/-- C4 amended: for a keyed-storage (Cache) sink, dispatching any
non-tuple value raises the sink-shape error immediately and the storage
sink is not written (the dispatcher returns the error and issues no
write effect); a two-element tuple is written directly.  The shape check
only rejects non-tuples, so tuples of other lengths pass it and fail
only at the storage call's argument binding. -/
theorem cache_sink_shape (id : Nat) (v : PyVal) (k val : PyScalar) :
    (v.isTuple = false →
      sink_output (Sink.cache id) v
        = .error (.valueError "Cache sink expects: Tuple[key, val]."))
    ∧ sink_output (Sink.cache id) (.tup [k, val]) = .ok (.cacheWrite id k val) := by
  constructor
  · intro hv
    cases v with
    | scalar s => rfl
    | tup elems => exact absurd hv (by simp [PyVal.isTuple])
  · rfl

/-- C4 witness: a bare string raises the sink-shape error; the pair
`('k', 'v')` is written directly. -/
theorem cache_sink_shape_witness :
    sink_output (Sink.cache 3) (.scalar (.str "x"))
      = .error (.valueError "Cache sink expects: Tuple[key, val].")
    ∧ sink_output (Sink.cache 3) (.tup [.str "k", .str "v"])
      = .ok (.cacheWrite 3 (.str "k") (.str "v")) :=
  ⟨(cache_sink_shape 3 (.scalar (.str "x")) (.str "k") (.str "v")).1 (by decide),
   (cache_sink_shape 3 (.scalar (.str "x")) (.str "k") (.str "v")).2⟩

/-- C6 counterexample: a processing function that returns nothing gives
`output = None`, and the dispatch loop iterates `[output]`, so the null
value is dispatched: a declared plain-function sink is called once with
`None`, refuting "no declared sink is called". -/
theorem none_output_dispatch_cex :
    handlerRun (fun _ => HandlerOut.single (.scalar .pyNone))
      [Sink.func 0 false] (.scalar .pyNone)
      = ([(Sink.func 0 false, PyVal.scalar .pyNone)], none)
    ∧ [(Sink.func 0 false, PyVal.scalar PyScalar.pyNone)]
        ≠ ([] : List (Sink × PyVal)) := by
  decide

/-- C6 amended: for every bound handler whose processing function
returns nothing, the null return value is treated as a single output and
dispatched to every declared sink in order (one `_sink_output` call per
sink, when those calls succeed); in particular a keyed-storage sink
raises the sink-shape error on it, since `None` is not a tuple. -/
theorem none_output_dispatched_as_single (f : PyVal → HandlerOut)
    (sinks : List Sink) (msg : PyVal)
    (hf : f msg = HandlerOut.single (.scalar .pyNone))
    (hok : ∀ s ∈ sinks, sinkOk s (.scalar .pyNone) = true) :
    handlerRun f sinks msg =
      (sinks.map fun s => (s, PyVal.scalar .pyNone), none)
    ∧ ∀ id, sink_output (Sink.cache id) (.scalar .pyNone)
        = .error (.valueError "Cache sink expects: Tuple[key, val].") := by
  constructor
  · unfold handlerRun handlerDispatch
    rw [hf]
    unfold dispatchVals
    rw [dispatchSinks_ok sinks (.scalar .pyNone) hok]
    simp [dispatchVals]
  · intro id
    rfl

/-- C6 amended witness: a none-returning handler with one plain-function
sink calls that sink once with the null value. -/
theorem none_output_dispatched_as_single_witness :
    handlerRun (fun _ => HandlerOut.single (.scalar .pyNone))
      [Sink.func 5 true] (.scalar (.str "m")) =
      ([(Sink.func 5 true, PyVal.scalar .pyNone)], none) := by
  have h := none_output_dispatched_as_single
    (fun _ => HandlerOut.single (.scalar .pyNone)) [Sink.func 5 true]
    (.scalar (.str "m")) (by decide) (by decide)
  simpa using h.1

/-! ## Claims about lifecycle, decoding and frame effects -/

theorem dictGet_dictSet_self {α : Type} (d : List (String × α)) (k : String)
    (v : α) : dictGet (dictSet d k v) k = some v := by
  induction d with
  | nil => simp [dictSet, dictGet]
  | cons hd tl ih =>
    obtain ⟨k1, v1⟩ := hd
    by_cases hk : k1 = k
    · simp [dictSet, dictGet, hk]
    · simp [dictSet, dictGet, hk, ih]

/-- C5: when the dispatch loop is started, a `KeyboardInterrupt` raised
out of the concurrent source tasks is swallowed and never propagates to
the caller, while any other exception raised by a per-source task
propagates, and in both cases (and on normal completion) the shutdown of
every registered entity runs: the stop calls of `conf_start` are always
exactly those of `_shutdown` over the registered topics. -/
theorem interrupt_swallowed_others_propagate (topics : List TopicState)
    (rs : List (Except PyExc Unit)) :
    (conf_start topics rs).snd = confShutdown topics
    ∧ (gatherExc rs = .error .keyboardInterrupt →
        (conf_start topics rs).fst = .ok ())
    ∧ ∀ e, e ≠ PyExc.keyboardInterrupt → gatherExc rs = .error e →
        (conf_start topics rs).fst = .error e := by
  refine ⟨rfl, ?_, ?_⟩
  · intro hki
    simp [conf_start, hki, exceptKI]
  · intro e hne hg
    cases e with
    | keyboardInterrupt => exact absurd rfl hne
    | exc n => simp [conf_start, hg, exceptKI]

/-- C5 witness: an interrupt from the single task is swallowed while a
topic with a live consumer handle is still stopped; an ordinary
exception propagates after the same stop calls. -/
theorem interrupt_swallowed_others_propagate_witness :
    (conf_start
        [{ name := "t", conf := [], starting_offset := none, codec := none,
           consumer := some 4, producer := none }]
        [Except.error PyExc.keyboardInterrupt]).fst = .ok ()
    ∧ (conf_start
        [{ name := "t", conf := [], starting_offset := none, codec := none,
           consumer := some 4, producer := none }]
        [Except.error PyExc.keyboardInterrupt]).snd = [StopEvent.stopConsumer 4]
    ∧ (conf_start ([] : List TopicState)
        [Except.error (PyExc.exc "ValueError")]).fst
        = .error (.exc "ValueError") := by
  refine ⟨?_, ?_, ?_⟩
  · exact (interrupt_swallowed_others_propagate
      [{ name := "t", conf := [], starting_offset := none, codec := none,
         consumer := some 4, producer := none }]
      [Except.error PyExc.keyboardInterrupt]).2.1 rfl
  · rfl
  · exact (interrupt_swallowed_others_propagate []
      [Except.error (PyExc.exc "ValueError")]).2.2 (.exc "ValueError")
      (by decide) rfl

/-- C7: for every message consumed through `Topic.__aiter__` (after lazy
consumer creation on the topic `t`), a bytes key with no truthy
`key_deserializer` configuration entry is decoded to text; with a custom
key deserializer configured, or when the key is not bytes, the key passes
through unchanged; likewise for the value.  Moreover an attached codec
counts as a configured value deserializer after lazy creation, so the
value then passes through undecoded. -/
theorem consume_decodes_only_without_deserializer (t : TopicState) (h : Nat)
    (m : Msg) :
    ((∀ b, m.key = .scalar (.bytes b) →
        confTruthy (aiterInit t h).conf "key_deserializer" = false →
        (aiterMsg (aiterInit t h) m).key = .scalar (.str (decodeBytes b)))
    ∧ (confTruthy (aiterInit t h).conf "key_deserializer" = true →
        (aiterMsg (aiterInit t h) m).key = m.key)
    ∧ ((∀ b, m.key ≠ PyVal.scalar (.bytes b)) →
        (aiterMsg (aiterInit t h) m).key = m.key))
    ∧ ((∀ b, m.value = .scalar (.bytes b) →
        confTruthy (aiterInit t h).conf "value_deserializer" = false →
        (aiterMsg (aiterInit t h) m).value = .scalar (.str (decodeBytes b)))
    ∧ (confTruthy (aiterInit t h).conf "value_deserializer" = true →
        (aiterMsg (aiterInit t h) m).value = m.value)
    ∧ ((∀ b, m.value ≠ PyVal.scalar (.bytes b)) →
        (aiterMsg (aiterInit t h) m).value = m.value))
    ∧ (∀ c, t.codec = some c → t.consumer = none →
        confTruthy (aiterInit t h).conf "value_deserializer" = true) := by
  refine ⟨⟨?_, ?_, ?_⟩, ⟨?_, ?_, ?_⟩, ?_⟩
  · intro b hb hconf
    simp [aiterMsg, hb, hconf]
  · intro hconf
    cases hm : m.key with
    | scalar s =>
      cases s with
      | bytes b => simp [aiterMsg, hm, hconf]
      | str s => simp [aiterMsg, hm]
      | pyNone => simp [aiterMsg, hm]
      | obj n => simp [aiterMsg, hm]
    | tup elems => simp [aiterMsg, hm]
  · intro hnb
    cases hm : m.key with
    | scalar s =>
      cases s with
      | bytes b => exact absurd hm (hnb b)
      | str s => simp [aiterMsg, hm]
      | pyNone => simp [aiterMsg, hm]
      | obj n => simp [aiterMsg, hm]
    | tup elems => simp [aiterMsg, hm]
  · intro b hb hconf
    simp [aiterMsg, hb, hconf]
  · intro hconf
    cases hm : m.value with
    | scalar s =>
      cases s with
      | bytes b => simp [aiterMsg, hm, hconf]
      | str s => simp [aiterMsg, hm]
      | pyNone => simp [aiterMsg, hm]
      | obj n => simp [aiterMsg, hm]
    | tup elems => simp [aiterMsg, hm]
  · intro hnb
    cases hm : m.value with
    | scalar s =>
      cases s with
      | bytes b => exact absurd hm (hnb b)
      | str s => simp [aiterMsg, hm]
      | pyNone => simp [aiterMsg, hm]
      | obj n => simp [aiterMsg, hm]
    | tup elems => simp [aiterMsg, hm]
  · intro c hc hcons
    unfold aiterInit
    rw [hcons]
    unfold get_consumer
    rw [hc]
    unfold confTruthy
    rw [dictGet_dictSet_self]
    rfl

/-- C7 witness: on a topic with empty configuration and no codec, a
consumed record with bytes key and value has both decoded to text; on a
topic with a codec, the value stays bytes. -/
theorem consume_decodes_only_without_deserializer_witness :
    (aiterMsg (aiterInit
        { name := "t", conf := [], starting_offset := none, codec := none,
          consumer := none, producer := none } 1)
        { key := .scalar (.bytes [104, 105]), value := .scalar (.bytes [104, 105]) }).key
      = .scalar (.str (decodeBytes [104, 105]))
    ∧ confTruthy (aiterInit
        { name := "t", conf := [], starting_offset := none, codec := some 9,
          consumer := none, producer := none } 1).conf "value_deserializer" = true := by
  constructor
  · exact (consume_decodes_only_without_deserializer
      { name := "t", conf := [], starting_offset := none, codec := none,
        consumer := none, producer := none } 1
      { key := .scalar (.bytes [104, 105]), value := .scalar (.bytes [104, 105]) }).1.1
      [104, 105] rfl (by decide)
  · exact (consume_decodes_only_without_deserializer
      { name := "t", conf := [], starting_offset := none, codec := some 9,
        consumer := none, producer := none } 1
      { key := .scalar .pyNone, value := .scalar .pyNone }).2.2
      9 rfl rfl

/-- C8: calling `_shutdown` on a Stream Entity whose inbound and
outbound handles were never created raises no exception (the embedded
shutdown is total and issues no stop call at all), does not create the
handles, leaves the entity's state unchanged, and is idempotent. -/
theorem shutdown_never_used_noop (t : TopicState)
    (hc : t.consumer = none) (hp : t.producer = none) :
    topicShutdown t = (t, [])
    ∧ topicShutdown (topicShutdown t).fst = (t, []) := by
  have h1 : topicShutdown t = (t, []) := by
    simp [topicShutdown, hc, hp]
  exact ⟨h1, by rw [h1]; exact h1⟩

/-- C8 witness: a freshly declared topic shuts down as a no-op, twice. -/
theorem shutdown_never_used_noop_witness :
    topicShutdown
      { name := "demo", conf := [], starting_offset := some (-2), codec := none,
        consumer := none, producer := none }
      = ({ name := "demo", conf := [], starting_offset := some (-2),
           codec := none, consumer := none, producer := none }, []) :=
  (shutdown_never_used_noop
    { name := "demo", conf := [], starting_offset := some (-2), codec := none,
      consumer := none, producer := none } rfl rfl).1

/-- C9 counterexample: on a topic with an attached codec, lazily creating
the inbound handle also mutates the merged configuration (it writes the
`value_deserializer` entry), so handle creation changes a field other
than the handle field. -/
theorem lazy_create_conf_mutation_cex :
    (aiterInit
        { name := "demo", conf := [], starting_offset := none, codec := some 0,
          consumer := none, producer := none } 1).consumer = some 1
    ∧ (aiterInit
        { name := "demo", conf := [], starting_offset := none, codec := some 0,
          consumer := none, producer := none } 1).conf
      ≠ ({ name := "demo", conf := [], starting_offset := none,
           codec := some 0, consumer := none, producer := none }
          : TopicState).conf := by
  decide

/-- C9 amended: every later operation leaves a Stream Entity's declared
state (name, merged configuration, starting offset, codec) unchanged
except lazy handle creation, which sets the handle field and — only when
a codec is configured — additionally writes the codec's entry
(`value_deserializer` for the inbound handle, `value_serializer` for the
outbound handle) into the merged configuration; with no codec, only the
handle field changes. -/
theorem lazy_create_frame (t : TopicState) (h : Nat) :
    ((aiterInit t h).name = t.name
      ∧ (aiterInit t h).starting_offset = t.starting_offset
      ∧ (aiterInit t h).codec = t.codec
      ∧ (aiterInit t h).producer = t.producer)
    ∧ ((callInit t h).name = t.name
      ∧ (callInit t h).starting_offset = t.starting_offset
      ∧ (callInit t h).codec = t.codec
      ∧ (callInit t h).consumer = t.consumer)
    ∧ (t.codec = none →
        (aiterInit t h).conf = t.conf ∧ (callInit t h).conf = t.conf)
    ∧ (∀ c, t.codec = some c → t.consumer = none →
        (aiterInit t h).conf
          = dictSet t.conf "value_deserializer" (.scalar (.obj c)))
    ∧ (∀ c, t.codec = some c → t.producer = none →
        (callInit t h).conf
          = dictSet t.conf "value_serializer" (.scalar (.obj c))) := by
  refine ⟨?_, ?_, ?_, ?_, ?_⟩
  · cases hcons : t.consumer with
    | some x => simp [aiterInit, hcons]
    | none =>
      cases hc : t.codec with
      | none => simp [aiterInit, hcons, get_consumer, hc]
      | some c => simp [aiterInit, hcons, get_consumer, hc]
  · cases hprod : t.producer with
    | some x => simp [callInit, hprod]
    | none =>
      cases hc : t.codec with
      | none => simp [callInit, hprod, get_producer, hc]
      | some c => simp [callInit, hprod, get_producer, hc]
  · intro hc
    constructor
    · cases hcons : t.consumer with
      | some x => simp [aiterInit, hcons]
      | none => simp [aiterInit, hcons, get_consumer, hc]
    · cases hprod : t.producer with
      | some x => simp [callInit, hprod]
      | none => simp [callInit, hprod, get_producer, hc]
  · intro c hc hcons
    simp [aiterInit, hcons, get_consumer, hc]
  · intro c hc hprod
    simp [callInit, hprod, get_producer, hc]

/-- C9 amended witness: with no codec, lazy creation of both handles
leaves the configuration (and all declared fields) untouched; with a
codec, the consumer-side creation writes exactly the deserializer entry. -/
theorem lazy_create_frame_witness :
    (aiterInit
      { name := "a", conf := [("linger_ms", .scalar (.obj 0))],
        starting_offset := none, codec := none,
        consumer := none, producer := none } 2).conf
      = [("linger_ms", PyVal.scalar (.obj 0))]
    ∧ (aiterInit
      { name := "a", conf := [], starting_offset := none, codec := some 7,
        consumer := none, producer := none } 2).conf
      = dictSet [] "value_deserializer" (PyVal.scalar (.obj 7)) := by
  constructor
  · exact ((lazy_create_frame
      { name := "a", conf := [("linger_ms", .scalar (.obj 0))],
        starting_offset := none, codec := none,
        consumer := none, producer := none } 2).2.2.1 rfl).1
  · exact (lazy_create_frame
      { name := "a", conf := [], starting_offset := none, codec := some 7,
        consumer := none, producer := none } 2).2.2.2.1 7 rfl rfl

end Slipstream
